import Mathlib

/-!
Shallow embedding of the rate-limited embedding/retrieval pipeline of the
RAG backend (backend/core/retriever.py, vector_store.py, embedder.py,
ai_parser.py).  Python floats that only ever flow through comparisons are
modelled as rationals; Python strings are modelled as `String` (or as
`List Char` where structural recursion over the text is needed); dict
fields accessed with `.get(key, default)` are modelled as `Option` fields
with an explicit default.
-/

/-- Python `str.strip()` on the character list of a string: drop whitespace
from both ends. -/
def pyStrip (l : List Char) : List Char :=
  ((l.dropWhile Char.isWhitespace).reverse.dropWhile Char.isWhitespace).reverse

/-- Python `s[:n]` on a string, modelled on its character list. -/
def pyTake (s : String) (n : ℕ) : String :=
  String.mk (s.data.take n)

/-- A Python float value as it participates in the NaN/Infinity validation
check of `VectorStore.upsert` (`v != v or v == float('inf') or v == float('-inf')`).
Finite values carry their rational magnitude. -/
inductive FVal where
  | fin (q : ℚ)
  | nan
  | inf
  | neginf
deriving DecidableEq, Repr

/-- The test `v != v or v == float('inf') or v == float('-inf')` from
`VectorStore.upsert`: true exactly for NaN and the two infinities. -/
def FVal.nonFinite : FVal → Bool
  | .fin _ => false
  | .nan => true
  | .inf => true
  | .neginf => true

/-- `Chunk` dataclass from backend/ingestion/base.py (metadata modelled as an
association list; `upsert` only copies it through). -/
structure Chunk where
  text : String
  source_type : String
  source_name : String
  metadata : List (String × String)
deriving DecidableEq, Repr

/-- Configured collection name `VECTOR_DB["collection_docs"]`. -/
def collectionDocs : String := "rag_documents"

/-- Configured collection name `VECTOR_DB["collection_chats"]`. -/
def collectionChats : String := "rag_conversations"

/-- `VectorStore._get_collection`: chat chunks go to the conversations
collection, everything else to the documents collection. -/
def getCollection (source_type : String) : String :=
  if source_type = "chat" then collectionChats else collectionDocs

/-- One row passed to `client.insert` by `VectorStore.upsert`. -/
structure InsertRecord where
  vector : List FVal
  text : String
  source_type : String
  source_name : String
  metadata : List (String × String)
deriving DecidableEq, Repr

/-- The row built for a valid chunk in `VectorStore.upsert` (text capped at
32000 chars, source name at 512). -/
def mkRecord (c : Chunk) (e : List FVal) : InsertRecord :=
  { vector := e
    text := pyTake c.text 32000
    source_type := c.source_type
    source_name := pyTake c.source_name 512
    metadata := c.metadata }

/-- The validation loop of `VectorStore.upsert` over `zip(chunks, embeddings)`:
returns the rows that survive the three checks (in order: empty/whitespace
text, wrong dimension or empty vector, non-finite value) together with the
skip count. -/
def upsertScan (dims : ℕ) : List (Chunk × List FVal) → List InsertRecord × ℕ
  | [] => ([], 0)
  | (c, e) :: rest =>
    let (data, skipped) := upsertScan dims rest
    if c.text = "" ∨ pyStrip c.text.data = [] then (data, skipped + 1)
    else if e = [] ∨ e.length ≠ dims then (data, skipped + 1)
    else if e.any FVal.nonFinite then (data, skipped + 1)
    else (mkRecord c e :: data, skipped)

/-- Result of `VectorStore.upsert`: the target collection (chosen once from
the first chunk's `source_type`), the rows handed to `client.insert`
(`inserted = []` means the insert call was skipped), and the skip count. -/
structure UpsertResult where
  collection : String
  inserted : List InsertRecord
  skipped : ℕ
deriving DecidableEq, Repr

/-- `VectorStore.upsert`: returns `none` on the early exit for empty inputs,
otherwise the validated rows, target collection and skip count. -/
def upsert (dims : ℕ) (chunks : List Chunk) (embeddings : List (List FVal)) :
    Option UpsertResult :=
  match chunks, embeddings with
  | [], _ => none
  | _, [] => none
  | c0 :: cs, e0 :: es =>
    let pairs := List.zip (c0 :: cs) (e0 :: es)
    let (data, skipped) := upsertScan dims pairs
    some { collection := getCollection c0.source_type
           inserted := data
           skipped := skipped }

/-! ### Retriever (backend/core/retriever.py) -/

/-- One result dict coming back from `VectorStore.search`: the similarity
under the `"score"` key (an absent key is modelled as `none`; the code reads
it with `.get("score", default)`), the chunk text and the
`metadata["file_path"]` value (`""` when absent, as produced by
`r.get("metadata", {}).get("file_path", "")`). -/
structure Hit where
  score : Option ℚ
  text : String
  filePath : String
deriving DecidableEq, Repr

/-- A result dict after `Retriever._rerank`: `rerankScore` models the
`"rerank_score"` key (present on every path that adds it), `fallbackFlag`
models `r.get("_is_fallback", False)`. -/
structure Ranked where
  hit : Hit
  rerankScore : Option ℚ
  fallbackFlag : Bool
deriving DecidableEq, Repr

/-- Configuration consumed by `Retriever` (`RETRIEVAL` dict in config.py and
the `VOYAGE_API_KEY` environment variable; `none` models an unset variable). -/
structure RetrieverCfg where
  topKRerank : ℕ
  scoreThreshold : ℚ
  voyageApiKey : Option String
deriving DecidableEq, Repr

/-- The repository's configured retrieval values (config.py `RETRIEVAL`),
with a set reranker key. -/
def cfgRetrieval (key : Option String) : RetrieverCfg :=
  { topKRerank := 10, scoreThreshold := -5, voyageApiKey := key }

/-- `max(0.0, min(1.0, s))` from `Retriever._fallback_rank`. -/
def clamp01 (q : ℚ) : ℚ := max 0 (min 1 q)

/-- Sort relation used by `_fallback_rank`: descending `rerank_score`
(`x["rerank_score"]` is always present there; `getD 0` totalises).
`List.insertionSort` with this relation reproduces Python's stable
`top.sort(key=..., reverse=True)`. -/
def fbRel (a b : Ranked) : Prop := b.rerankScore.getD 0 ≤ a.rerankScore.getD 0

instance : DecidableRel fbRel := fun a b =>
  inferInstanceAs (Decidable (b.rerankScore.getD 0 ≤ a.rerankScore.getD 0))

instance : IsTotal Ranked fbRel := ⟨fun a b => le_total (b.rerankScore.getD 0) (a.rerankScore.getD 0)⟩

instance : IsTrans Ranked fbRel := ⟨fun _ _ _ h1 h2 => le_trans h2 h1⟩

/-- The dict update performed by `_fallback_rank` on each of the first
`top_k_rerank` results: clamp `r.get("score", 0.5)` into [0,1] as
`rerank_score` and set `_is_fallback`. -/
def fbMap (r : Hit) : Ranked :=
  { hit := r, rerankScore := some (clamp01 (r.score.getD (mkRat 1 2))), fallbackFlag := true }

/-- `Retriever._fallback_rank`: take the first `top_k_rerank` results, score
them locally, and stably sort by descending `rerank_score`. -/
def fallbackRank (topK : ℕ) (results : List Hit) : List Ranked :=
  List.insertionSort fbRel ((results.take topK).map fbMap)

/-- One entry of the reranker response's `data` array, after the dict reads
`item.get("index", 0)` and `item.get("relevance_score", 0.0)`. -/
structure RerankItem where
  index : ℤ
  score : ℚ
deriving DecidableEq, Repr

/-- Outcome of the `httpx.post` call to the remote reranker, supplied as an
oracle: a timeout, some other exception, or a response with a status code
and the parsed `data` array. -/
inductive RerankOutcome where
  | timeout
  | exception
  | response (status : ℕ) (items : List RerankItem)
deriving DecidableEq, Repr

/-- Python list indexing `l[i]` for an `int` index: non-negative indices are
positions from the front, negative indices count from the back, anything
outside `[-len, len)` raises `IndexError` (modelled as `none`). -/
def pyGet (l : List Hit) (i : ℤ) : Option Hit :=
  if 0 ≤ i then l.get? i.toNat
  else if -(l.length : ℤ) ≤ i then l.get? ((l.length : ℤ) + i).toNat
  else none

/-- The mapping loop of `Retriever._rerank` over the response items: an item
with `index < len(results)` is looked up with Python indexing (an
`IndexError` from a large negative index aborts the whole loop and is
reported as `Except.error`), an item with `index ≥ len(results)` is
discarded. -/
def mapRerankItems (results : List Hit) : List RerankItem → Except Unit (List Ranked)
  | [] => .ok []
  | it :: rest =>
    if it.index < (results.length : ℤ) then
      match pyGet results it.index with
      | none => .error ()
      | some h =>
        match mapRerankItems results rest with
        | .error e => .error e
        | .ok l => .ok ({ hit := h, rerankScore := some it.score, fallbackFlag := false } :: l)
    else mapRerankItems results rest

/-- `Retriever._rerank`: empty candidates give an empty result; a missing or
empty `VOYAGE_API_KEY`, a timeout, an exception, a non-200 status, an empty
`data` array, or an `IndexError` while mapping all fall back to
`_fallback_rank`; otherwise the response items are mapped back onto the
candidates. -/
def rerank (cfg : RetrieverCfg) (results : List Hit) (oracle : RerankOutcome) : List Ranked :=
  if results = [] then []
  else if cfg.voyageApiKey = none ∨ cfg.voyageApiKey = some "" then
    fallbackRank cfg.topKRerank results
  else
    match oracle with
    | .timeout => fallbackRank cfg.topKRerank results
    | .exception => fallbackRank cfg.topKRerank results
    | .response status items =>
      if status ≠ 200 then fallbackRank cfg.topKRerank results
      else if items = [] then fallbackRank cfg.topKRerank results
      else
        match mapRerankItems results items with
        | .ok l => l
        | .error _ => fallbackRank cfg.topKRerank results

/-- Substring test on character lists (Python `needle in haystack`): the
needle is a prefix of some suffix of the haystack. -/
def charsHasSub (needle : List Char) : List Char → Bool
  | [] => needle.isEmpty
  | c :: rest => needle.isPrefixOf (c :: rest) || charsHasSub needle rest

/-- Python `needle in haystack` for strings. -/
def strContains (hay needle : String) : Bool :=
  charsHasSub needle.data hay.data

/-- Key for the boost sort in `Retriever.search`:
`(not x.get("boosted", False), -x.get("score", 0))`, where a result is
boosted when the extracted filename occurs inside its
`metadata["file_path"]`. -/
def boostKey (fn : String) (r : Hit) : ℕ × ℚ :=
  (if strContains r.filePath fn then 0 else 1, -(r.score.getD 0))

/-- Lexicographic comparison of boost keys (Python tuple comparison). -/
def boostRel (fn : String) (a b : Hit) : Prop :=
  (boostKey fn a).1 < (boostKey fn b).1 ∨
    ((boostKey fn a).1 = (boostKey fn b).1 ∧ (boostKey fn a).2 ≤ (boostKey fn b).2)

instance (fn : String) : DecidableRel (boostRel fn) := fun _ _ =>
  inferInstanceAs (Decidable (_ ∨ _))

/-- The filename boost step of `Retriever.search`: when a filename was
extracted from the query, stably sort the hits so that hits whose path
contains the filename come first, ties broken by descending similarity. -/
def boost (filename : Option String) (results : List Hit) : List Hit :=
  match filename with
  | none => results
  | some fn => List.insertionSort (boostRel fn) results

/-- The `_is_fallback` detection of `Retriever.search`:
`all("rerank_score" in r and r.get("_is_fallback", False) for r in reranked)`. -/
def allFallback (reranked : List Ranked) : Bool :=
  reranked.all fun r => r.rerankScore.isSome && r.fallbackFlag

/-- The threshold-filter-and-guarantee step of `Retriever.search` (its last
stage): choose the floor 0.2 when every result carries a fallback score and
the configured threshold otherwise, filter by `r.get("rerank_score", 0) >=
threshold`, and fall back to the top 3 reranked results when the filter
removed everything but the reranked list was non-empty. -/
def thresholdStep (scoreThreshold : ℚ) (reranked : List Ranked) : List Ranked :=
  let threshold := if allFallback reranked then mkRat 1 5 else scoreThreshold
  let filtered := reranked.filter fun r => threshold ≤ r.rerankScore.getD 0
  if filtered = [] ∧ reranked ≠ [] then reranked.take 3 else filtered

/-- `Retriever.search` from the vector-store results onward: the store's
hits (the store itself is an external collaborator), the filename extracted
from the query by `_extract_filename_from_query` (a regular-expression match,
supplied here as an input), and the remote reranker outcome are the inputs;
the query embedding only feeds the store. -/
def search (cfg : RetrieverCfg) (filename : Option String) (storeResults : List Hit)
    (oracle : RerankOutcome) : List Ranked :=
  let results := boost filename storeResults
  if results = [] then []
  else thresholdStep cfg.scoreThreshold (rerank cfg results oracle)

/-! ### Embedder (backend/core/embedder.py)

Wall-clock time and sleeping are made explicit: every stateful operation
takes the current time `now` and returns the time after any sleeps; the
small additive sleep padding of `_sleep_with_jitter` (0.05s) is the
parameter `jitter`. -/

/-- Embedder configuration: the `JINA_EMBED_RPM`/`JINA_EMBED_TPM`
environment ceilings and `EMBEDDING["batch_size"]`. -/
structure EmbedCfg where
  rpm : ℕ
  tpm : ℕ
  batchSize : ℕ
deriving DecidableEq, Repr

/-- The default embedder configuration (env defaults 100 / 100000,
config.py batch size 50). -/
def cfgEmbed : EmbedCfg := { rpm := 100, tpm := 100000, batchSize := 50 }

/-- The embedder's mutable window counters (`_window_start`,
`_window_requests`, `_window_tokens`).  `windowTokens` is an integer because
the post-call reconciliation `window_tokens += prompt_tokens - estimated`
can drive it below zero. -/
structure EmbedBudget where
  windowStart : ℚ
  windowRequests : ℕ
  windowTokens : ℤ
deriving DecidableEq, Repr

/-- `Embedder._estimate_tokens` on the tokenizer-free fallback path:
`max(1, total_chars // 4)`. -/
def estimateTokens (texts : List String) : ℕ :=
  max 1 ((texts.map String.length).sum / 4)

/-- `Embedder._wait_for_budget`: lazily roll the 60s window over, admit
immediately when neither ceiling would be exceeded, otherwise sleep out the
rest of the window (plus jitter) and reset the window counters.  Returns the
new budget state and the time when the call returns. -/
def embWait (cfg : EmbedCfg) (st : EmbedBudget) (now jitter : ℚ)
    (requestsCost : ℕ) (tokensCost : ℤ) : EmbedBudget × ℚ :=
  let st1 := if 60 ≤ now - st.windowStart then
      { windowStart := now, windowRequests := 0, windowTokens := 0 } else st
  let exceedsRpm := cfg.rpm < st1.windowRequests + requestsCost
  let exceedsTpm := (cfg.tpm : ℤ) < st1.windowTokens + tokensCost
  if ¬(exceedsRpm ∨ exceedsTpm) then (st1, now)
  else
    let sleepFor := (st1.windowStart + 60) - now
    let now2 := if 0 < sleepFor then now + (sleepFor + jitter) else now
    ({ windowStart := now2, windowRequests := 0, windowTokens := 0 }, now2)

/-- The reservation step of `Embedder.embed_documents` / `embed_query`:
`_wait_for_budget(1, est)` followed by the two counter increments. -/
def reserveEmbed (cfg : EmbedCfg) (st : EmbedBudget) (now jitter : ℚ) (est : ℕ) :
    EmbedBudget × ℚ :=
  let (st1, now1) := embWait cfg st now jitter 1 (est : ℤ)
  ({ st1 with
      windowRequests := st1.windowRequests + 1
      windowTokens := st1.windowTokens + (est : ℤ) }, now1)

/-- The batch-shrink step of `Embedder.embed_documents`: when the estimate
exceeds the TPM ceiling and the batch has more than one item, shrink it to
`max(1, int(len(batch) * max(0.01, tpm / estimated)))` items. -/
def shrinkBatch (tpm : ℕ) (batch : List String) : List String :=
  let est := estimateTokens batch
  if tpm < est ∧ 1 < batch.length then
    let ratio : ℚ := max (mkRat 1 100) (mkRat tpm est)
    let newSize : ℕ := max 1 (⌊(batch.length : ℚ) * ratio⌋.toNat)
    batch.take newSize
  else batch

/-- One iteration of the `embed_documents` batching loop up to the network
call: slice the batch at `i`, shrink it if oversized, re-estimate, reserve
budget.  Returns the batch actually sent, its estimate, and the budget state
and time just after the reservation. -/
def embedStep (cfg : EmbedCfg) (st : EmbedBudget) (now jitter : ℚ)
    (texts : List String) (i : ℕ) : List String × ℕ × EmbedBudget × ℚ :=
  let batch := shrinkBatch cfg.tpm ((texts.drop i).take cfg.batchSize)
  let est := estimateTokens batch
  let (st1, now1) := reserveEmbed cfg st now jitter est
  (batch, est, st1, now1)

/-! ### AI parser (backend/core/ai_parser.py) -/

/-- AI-parser configuration (config.py `AI_PARSER`): the three Groq
ceilings and the completion budget `max_tokens`. -/
structure ParserCfg where
  rpm : ℕ
  tpm : ℕ
  tpd : ℕ
  maxTokens : ℕ
deriving DecidableEq, Repr

/-- The configured `AI_PARSER` values. -/
def cfgAIParser : ParserCfg := { rpm := 30, tpm := 30000, tpd := 500000, maxTokens := 1024 }

/-- The AI parser's mutable counters (`_window_start`, `_window_requests`,
`_window_tokens`, `_daily_tokens`). -/
structure ParserBudget where
  windowStart : ℚ
  windowRequests : ℕ
  windowTokens : ℕ
  dailyTokens : ℕ
deriving DecidableEq, Repr

/-- Result of `AIParser._wait_for_budget`: either the daily-limit
`RuntimeError` (carrying the counters as they stand when it is raised) or
permission to proceed, with the state and the time after any sleep. -/
inductive WaitOutcome where
  | quotaError (st : ParserBudget)
  | proceed (st : ParserBudget) (now : ℚ)
deriving DecidableEq, Repr

/-- `AIParser._wait_for_budget`: lazy window rollover, then the three
ceiling checks; a daily-ceiling hit raises, a per-minute hit sleeps out the
window and resets the window counters. -/
def waitForBudgetAI (cfg : ParserCfg) (st : ParserBudget) (now jitter : ℚ)
    (est : ℕ) : WaitOutcome :=
  let st1 := if 60 ≤ now - st.windowStart then
      { st with windowStart := now, windowRequests := 0, windowTokens := 0 } else st
  let exceedsRpm := cfg.rpm < st1.windowRequests + 1
  let exceedsTpm := cfg.tpm < st1.windowTokens + est
  let exceedsTpd := cfg.tpd < st1.dailyTokens + est
  if ¬(exceedsRpm ∨ exceedsTpm ∨ exceedsTpd) then .proceed st1 now
  else if exceedsTpd then .quotaError st1
  else
    let sleepFor := (st1.windowStart + 60) - now
    let now2 := if 0 < sleepFor then now + (sleepFor + jitter) else now
    .proceed { st1 with windowStart := now2, windowRequests := 0, windowTokens := 0 } now2

/-- Outcome of one `client.chat.completions.create` call, supplied as an
oracle indexed by a running call counter: a completion (whose message
content may be null), a rate-limit error, a token-limit error, or any other
exception. -/
inductive AttemptOutcome where
  | completion (content : Option (List Char))
  | rateLimited
  | tokenLimited
  | apiError
deriving DecidableEq, Repr

/-- Result of `AIParser.parse_content`: the returned value (`none` is
Python's `None`), the budget counters, the time, and the next unused index
into the attempt oracle (so `k` unchanged means no remote call was made). -/
structure ParseResult where
  output : Option (List Char)
  st : ParserBudget
  now : ℚ
  k : ℕ
deriving DecidableEq, Repr

/-- The `"\n...[truncated]"` marker appended by `parse_content`. -/
def truncMark : List Char := "\n...[truncated]".data

/-- The `"NO_VALID_CONTENT"` sentinel checked by `parse_content`. -/
def noValidMark : List Char := "NO_VALID_CONTENT".data

mutual

/-- `AIParser.parse_content` (raw text as a character list): empty or
whitespace-only content returns `None`; long content is truncated at 6000
characters; the estimated cost is reserved under the budget lock, with the
daily-quota `RuntimeError` caught and converted to `None`; then up to 5
remote attempts are made. -/
def parseContent (cfg : ParserCfg) (oracle : ℕ → AttemptOutcome) (jitter : ℚ)
    (raw : List Char) (st : ParserBudget) (now : ℚ) (k : ℕ) : ParseResult :=
  if raw = [] ∨ pyStrip raw = [] then ⟨none, st, now, k⟩
  else
    let raw1 := if 6000 < raw.length then raw.take 6000 ++ truncMark else raw
    let inputTokens := max 1 (raw1.length / 4)
    let est := inputTokens + cfg.maxTokens
    match waitForBudgetAI cfg st now jitter est with
    | .quotaError st1 => ⟨none, st1, now, k⟩
    | .proceed st1 now1 =>
      let st2 : ParserBudget :=
        { st1 with
            windowRequests := st1.windowRequests + 1
            windowTokens := st1.windowTokens + est
            dailyTokens := st1.dailyTokens + est }
      attemptLoop cfg oracle jitter raw1 [0, 1, 2, 3, 4] st2 now1 k
  termination_by (if raw.length ≤ 3000 then 0 else 1) * 10 + 6
  decreasing_by
    all_goals simp only [List.length_take, List.length_append, List.length_cons,
      List.length_nil]
    all_goals split_ifs
    all_goals try simp_all [List.length_take, List.length_append]
    all_goals omega

/-- The retry loop of `parse_content` over the remaining attempt indices
(`for attempt in range(5)`): a rate-limit error backs off `2.0 ** (attempt
+ 1)` seconds and retries; a token-limit error restarts `parse_content` on
the first 3000 characters when the content is longer than that and
otherwise gives up; other errors retry (after a 1s sleep) until the last
attempt; a completion returns its stripped content unless it is empty or
the `NO_VALID_CONTENT` sentinel. -/
def attemptLoop (cfg : ParserCfg) (oracle : ℕ → AttemptOutcome) (jitter : ℚ)
    (raw : List Char) (attempts : List ℕ) (st : ParserBudget) (now : ℚ) (k : ℕ) :
    ParseResult :=
  match attempts with
  | [] => ⟨none, st, now, k⟩
  | a :: rest =>
    match oracle k with
    | .completion content =>
      match content with
      | none => ⟨none, st, now, k + 1⟩
      | some s =>
        if s = [] ∨ pyStrip s = noValidMark then ⟨none, st, now, k + 1⟩
        else ⟨some (pyStrip s), st, now, k + 1⟩
    | .rateLimited =>
      attemptLoop cfg oracle jitter raw rest st (now + ((2 : ℚ) ^ (a + 1) + jitter)) (k + 1)
    | .tokenLimited =>
      if 3000 < raw.length then parseContent cfg oracle jitter (raw.take 3000) st now (k + 1)
      else ⟨none, st, now, k + 1⟩
    | .apiError =>
      if a < 4 then attemptLoop cfg oracle jitter raw rest st (now + (1 + jitter)) (k + 1)
      else ⟨none, st, now, k + 1⟩
  termination_by (if raw.length ≤ 3000 then 0 else 1) * 10 + attempts.length
  decreasing_by
    all_goals simp only [List.length_take, List.length_append, List.length_cons,
      List.length_nil]
    all_goals split_ifs
    all_goals try simp_all [List.length_take, List.length_append]
    all_goals omega

end

/-! ## Theorems -/

/-- The reranked list that `Retriever.search` hands to its threshold filter:
`_rerank` applied to the boosted vector-store results. -/
def rerankedOf (cfg : RetrieverCfg) (filename : Option String) (storeResults : List Hit)
    (oracle : RerankOutcome) : List Ranked :=
  rerank cfg (boost filename storeResults) oracle

/-- The threshold actually applied by `search` to a reranked list. -/
def activeFloor (scoreThreshold : ℚ) (reranked : List Ranked) : ℚ :=
  if allFallback reranked then mkRat 1 5 else scoreThreshold

/-- Helper: `search` on non-empty boosted results is the threshold step of
the reranked list. -/
theorem search_eq_thresholdStep (cfg : RetrieverCfg) (filename : Option String)
    (storeResults : List Hit) (oracle : RerankOutcome)
    (h : boost filename storeResults ≠ []) :
    search cfg filename storeResults oracle =
      thresholdStep cfg.scoreThreshold (rerankedOf cfg filename storeResults oracle) := by
  simp [search, rerankedOf, h]

/-- Claim C1: whenever the reranked candidate list is non-empty but every
reranked score is below the active threshold, `Retriever.search` ignores the
threshold and returns the top 3 reranked results, so the returned list has
length `min 3 (number of reranked results)` and is non-empty. -/
theorem search_nonempty_guarantee (cfg : RetrieverCfg) (filename : Option String)
    (storeResults : List Hit) (oracle : RerankOutcome)
    (hne : rerankedOf cfg filename storeResults oracle ≠ [])
    (hbelow : ∀ r ∈ rerankedOf cfg filename storeResults oracle,
      r.rerankScore.getD 0 <
        activeFloor cfg.scoreThreshold (rerankedOf cfg filename storeResults oracle)) :
    search cfg filename storeResults oracle =
      (rerankedOf cfg filename storeResults oracle).take 3 ∧
    (search cfg filename storeResults oracle).length =
      min 3 (rerankedOf cfg filename storeResults oracle).length ∧
    search cfg filename storeResults oracle ≠ [] := by
  have hres : boost filename storeResults ≠ [] := by
    intro h
    exact hne (by simp [rerankedOf, rerank, h])
  have hstep := search_eq_thresholdStep cfg filename storeResults oracle hres
  set R := rerankedOf cfg filename storeResults oracle with hR
  have hfilter : (R.filter fun r =>
      decide ((if allFallback R then mkRat 1 5 else cfg.scoreThreshold) ≤
        r.rerankScore.getD 0)) = [] := by
    refine List.filter_eq_nil_iff.mpr fun a ha => ?_
    have := hbelow a ha
    simp only [activeFloor] at this
    simpa using not_le.mpr this
  have hmain : search cfg filename storeResults oracle = R.take 3 := by
    rw [hstep]
    simp only [thresholdStep, hfilter]
    simp [hne]
  refine ⟨hmain, ?_, ?_⟩
  · rw [hmain, List.length_take]
  · rw [hmain]
    intro habs
    have hlen : R.length = 0 := by
      have := congrArg List.length habs
      rw [List.length_take] at this
      simp only [List.length_nil] at this
      omega
    exact hne (List.eq_nil_of_length_eq_zero hlen)

/-- Witness for claim C1 at a concrete input: one fallback-scored hit whose
similarity 0.1 lies below the fallback floor 0.2. -/
theorem search_nonempty_guarantee_witness :
    search (cfgRetrieval none) none [⟨some (mkRat 1 10), "t", ""⟩] .timeout =
      (rerankedOf (cfgRetrieval none) none [⟨some (mkRat 1 10), "t", ""⟩] .timeout).take 3 ∧
    (search (cfgRetrieval none) none [⟨some (mkRat 1 10), "t", ""⟩] .timeout).length =
      min 3 (rerankedOf (cfgRetrieval none) none [⟨some (mkRat 1 10), "t", ""⟩] .timeout).length ∧
    search (cfgRetrieval none) none [⟨some (mkRat 1 10), "t", ""⟩] .timeout ≠ [] :=
  search_nonempty_guarantee (cfgRetrieval none) none [⟨some (mkRat 1 10), "t", ""⟩] .timeout
    (by decide) (by decide)

/-- Helper: on every failure mode named by the spec, `_rerank` is
`_fallback_rank`. -/
theorem rerank_eq_fallback (cfg : RetrieverCfg) (results : List Hit) (oracle : RerankOutcome)
    (hne : results ≠ [])
    (hfail : cfg.voyageApiKey = none ∨ cfg.voyageApiKey = some "" ∨ oracle = .timeout ∨
      (∃ s items, oracle = .response s items ∧ s ≠ 200) ∨ ∃ s, oracle = .response s []) :
    rerank cfg results oracle = fallbackRank cfg.topKRerank results := by
  unfold rerank
  rcases hfail with h | h | h | ⟨s, items, rfl, hs⟩ | ⟨s, rfl⟩
  · simp [hne, h]
  · simp [hne, h]
  · subst h
    by_cases hk : cfg.voyageApiKey = none ∨ cfg.voyageApiKey = some "" <;> simp [hne, hk]
  · by_cases hk : cfg.voyageApiKey = none ∨ cfg.voyageApiKey = some "" <;> simp [hne, hk, hs]
  · by_cases hk : cfg.voyageApiKey = none ∨ cfg.voyageApiKey = some ""
    · simp [hne, hk]
    · by_cases hs : s = 200 <;> simp [hne, hk, hs]

/-- Helper: length of a fallback ranking. -/
theorem fallbackRank_length (topK : ℕ) (results : List Hit) :
    (fallbackRank topK results).length = min topK results.length := by
  simp [fallbackRank, List.length_insertionSort, List.length_take]

/-- Helper: members of a fallback ranking are the locally-rescored leading
candidates. -/
theorem fallbackRank_mem (topK : ℕ) (results : List Hit) (x : Ranked) :
    x ∈ fallbackRank topK results ↔ ∃ h ∈ results.take topK, x = fbMap h := by
  rw [fallbackRank, List.mem_insertionSort, List.mem_map]
  constructor
  · rintro ⟨h, hmem, rfl⟩
    exact ⟨h, hmem, rfl⟩
  · rintro ⟨h, hmem, rfl⟩
    exact ⟨h, hmem, rfl⟩

/-- Helper: a fallback ranking is sorted by descending `rerank_score`. -/
theorem fallbackRank_sorted (topK : ℕ) (results : List Hit) :
    (fallbackRank topK results).Sorted fbRel :=
  List.sorted_insertionSort fbRel _

/-- Claim C2: with non-empty candidates, whenever the remote reranker is
unconfigured, times out, returns a non-200 status or returns an empty data
set, `_rerank` never raises and returns a non-empty list of at most
`top_k_rerank` results, each flagged as a fallback score with the candidate
similarity clamped into [0,1] as `rerank_score`, sorted descending by that
score.  (Totality holds by construction: `rerank` is a total function.) -/
theorem rerank_fallback_total (cfg : RetrieverCfg) (results : List Hit) (oracle : RerankOutcome)
    (hne : results ≠ []) (htk : 1 ≤ cfg.topKRerank)
    (hfail : cfg.voyageApiKey = none ∨ cfg.voyageApiKey = some "" ∨ oracle = .timeout ∨
      (∃ s items, oracle = .response s items ∧ s ≠ 200) ∨ ∃ s, oracle = .response s []) :
    rerank cfg results oracle ≠ [] ∧
    (rerank cfg results oracle).length ≤ cfg.topKRerank ∧
    (∀ x ∈ rerank cfg results oracle, x.fallbackFlag = true ∧
      ∃ h ∈ results, x.hit = h ∧ x.rerankScore = some (clamp01 (h.score.getD (mkRat 1 2)))) ∧
    (rerank cfg results oracle).Sorted fbRel := by
  rw [rerank_eq_fallback cfg results oracle hne hfail]
  refine ⟨?_, ?_, ?_, fallbackRank_sorted _ _⟩
  · intro habs
    have hlen := fallbackRank_length cfg.topKRerank results
    rw [habs] at hlen
    have hpos : 0 < results.length := List.length_pos.mpr hne
    simp only [List.length_nil] at hlen
    omega
  · rw [fallbackRank_length]
    exact min_le_left _ _
  · intro x hx
    obtain ⟨h, hmem, rfl⟩ := (fallbackRank_mem _ _ _).mp hx
    exact ⟨rfl, h, List.mem_of_mem_take hmem, rfl, rfl⟩

/-- Witness for claim C2 at a concrete input: two hits, reranker timing
out; the fallback result is non-empty, within `top_k_rerank`, flagged,
clamped and sorted. -/
theorem rerank_fallback_total_witness :
    rerank (cfgRetrieval (some "key")) [⟨some (mkRat 3 2), "a", ""⟩, ⟨some (mkRat 1 4), "b", ""⟩]
        .timeout ≠ [] ∧
    (rerank (cfgRetrieval (some "key")) [⟨some (mkRat 3 2), "a", ""⟩, ⟨some (mkRat 1 4), "b", ""⟩]
        .timeout).length ≤ (cfgRetrieval (some "key")).topKRerank ∧
    (∀ x ∈ rerank (cfgRetrieval (some "key"))
        [⟨some (mkRat 3 2), "a", ""⟩, ⟨some (mkRat 1 4), "b", ""⟩] .timeout,
      x.fallbackFlag = true ∧
      ∃ h ∈ [(⟨some (mkRat 3 2), "a", ""⟩ : Hit), ⟨some (mkRat 1 4), "b", ""⟩],
        x.hit = h ∧ x.rerankScore = some (clamp01 (h.score.getD (mkRat 1 2)))) ∧
    (rerank (cfgRetrieval (some "key")) [⟨some (mkRat 3 2), "a", ""⟩, ⟨some (mkRat 1 4), "b", ""⟩]
        .timeout).Sorted fbRel :=
  rerank_fallback_total (cfgRetrieval (some "key"))
    [⟨some (mkRat 3 2), "a", ""⟩, ⟨some (mkRat 1 4), "b", ""⟩] .timeout
    (by decide) (by decide) (Or.inr (Or.inr (Or.inl rfl)))

/-- Counterexample for claim C5: a mixed result set (one fallback-scored
item at 0.1, one remote-scored item at 3), filtered with the configured
remote floor −5.  The code's `all(...)` test is false, so the configured
floor is used and the fallback item scoring 0.1 < 0.2 survives — the claim
says mixed sets should be filtered with the fallback floor 0.2, which would
have dropped it. -/
theorem thresholdStep_mixed_cx :
    thresholdStep (-5)
        [⟨⟨some 1, "a", ""⟩, some (mkRat 1 10), true⟩, ⟨⟨some 1, "b", ""⟩, some 3, false⟩] =
      [⟨⟨some 1, "a", ""⟩, some (mkRat 1 10), true⟩, ⟨⟨some 1, "b", ""⟩, some 3, false⟩] ∧
    thresholdStep (-5)
        [⟨⟨some 1, "a", ""⟩, some (mkRat 1 10), true⟩, ⟨⟨some 1, "b", ""⟩, some 3, false⟩] ≠
      ([⟨⟨some 1, "a", ""⟩, some (mkRat 1 10), true⟩,
        ⟨⟨some 1, "b", ""⟩, some 3, false⟩] : List Ranked).filter
        (fun r => decide (mkRat 1 5 ≤ r.rerankScore.getD 0)) := by
  constructor <;> decide

/-- Claim C5 (amended): a result set in which every item carries a fallback
score is filtered with the fixed floor 0.2 regardless of the configured
remote floor; but a mixed set in which any item lacks the fallback flag (or
lacks a rerank score) is treated as remote and filtered with the configured
remote floor, not the fallback floor. -/
theorem thresholdStep_floor_choice (thr thr' : ℚ) (reranked : List Ranked) :
    (allFallback reranked = true →
      thresholdStep thr reranked = thresholdStep thr' reranked ∧
      thresholdStep thr reranked =
        (if reranked.filter (fun r => decide (mkRat 1 5 ≤ r.rerankScore.getD 0)) = [] ∧
            reranked ≠ []
         then reranked.take 3
         else reranked.filter fun r => decide (mkRat 1 5 ≤ r.rerankScore.getD 0))) ∧
    (allFallback reranked = false →
      thresholdStep thr reranked =
        (if reranked.filter (fun r => decide (thr ≤ r.rerankScore.getD 0)) = [] ∧ reranked ≠ []
         then reranked.take 3
         else reranked.filter fun r => decide (thr ≤ r.rerankScore.getD 0))) := by
  constructor
  · intro h
    constructor <;> simp [thresholdStep, h]
  · intro h
    simp [thresholdStep, h]

/-- Witness for the amended claim C5: on an all-fallback list the result is
independent of the configured floor (−5 vs 7); on the mixed list of the
counterexample the configured floor −5 is the one applied. -/
theorem thresholdStep_floor_choice_witness :
    thresholdStep (-5) [⟨⟨some 1, "a", ""⟩, some (mkRat 1 10), true⟩] =
      thresholdStep 7 [⟨⟨some 1, "a", ""⟩, some (mkRat 1 10), true⟩] ∧
    thresholdStep (-5)
        [⟨⟨some 1, "a", ""⟩, some (mkRat 1 10), true⟩, ⟨⟨some 1, "b", ""⟩, some 3, false⟩] =
      ([⟨⟨some 1, "a", ""⟩, some (mkRat 1 10), true⟩,
        ⟨⟨some 1, "b", ""⟩, some 3, false⟩] : List Ranked).filter
        (fun r => decide ((-5 : ℚ) ≤ r.rerankScore.getD 0)) :=
  ⟨(thresholdStep_floor_choice (-5) 7 [⟨⟨some 1, "a", ""⟩, some (mkRat 1 10), true⟩]).1
      (by decide) |>.1,
    by
      have h := (thresholdStep_floor_choice (-5) (-5)
        [⟨⟨some 1, "a", ""⟩, some (mkRat 1 10), true⟩,
          ⟨⟨some 1, "b", ""⟩, some 3, false⟩]).2 (by decide)
      exact h.trans (by decide)⟩

/-- Python position of an `int` index into a list of length `n` (negative
indices count from the back). -/
def pyPos (n : ℕ) (i : ℤ) : ℕ := (if 0 ≤ i then i else (n : ℤ) + i).toNat

/-- Helper: inside `[-len, len)` Python indexing is a `get?` at `pyPos`. -/
theorem pyGet_eq_get? (l : List Hit) (i : ℤ) (hlow : -(l.length : ℤ) ≤ i) :
    pyGet l i = l.get? (pyPos l.length i) := by
  unfold pyGet pyPos
  by_cases h0 : 0 ≤ i
  · simp [h0]
  · simp [h0, hlow]

/-- Helper: inside `[-len, len)` the Python position is in range. -/
theorem pyPos_lt (n : ℕ) (i : ℤ) (hlow : -(n : ℤ) ≤ i) (hhigh : i < (n : ℤ)) :
    pyPos n i < n := by
  unfold pyPos
  split_ifs with h0 <;> omega

/-- Helper: when every response index is at least `-len`, the mapping loop
keeps exactly the items with `index < len`, each mapped onto the candidate
at its Python position. -/
theorem mapRerankItems_ok (results : List Hit) :
    ∀ items : List RerankItem, (∀ it ∈ items, -(results.length : ℤ) ≤ it.index) →
    mapRerankItems results items =
      .ok ((items.filter fun it => decide (it.index < (results.length : ℤ))).map
        fun it => { hit := (results.get? (pyPos results.length it.index)).getD ⟨none, "", ""⟩
                    rerankScore := some it.score
                    fallbackFlag := false }) := by
  intro items
  induction items with
  | nil => intro _; simp [mapRerankItems]
  | cons it rest ih =>
    intro hall
    have hlow := hall it (List.mem_cons_self _ _)
    have hrest := fun x hx => hall x (List.mem_cons_of_mem _ hx)
    rw [mapRerankItems]
    by_cases hlt : it.index < (results.length : ℤ)
    · rw [if_pos hlt, pyGet_eq_get? _ _ hlow]
      have hpos : pyPos results.length it.index < results.length := pyPos_lt _ _ hlow hlt
      obtain ⟨y, hy⟩ : ∃ y, results.get? (pyPos results.length it.index) = some y :=
        ⟨_, List.get?_eq_get hpos⟩
      rw [hy, ih hrest]
      have hy2 : results[pyPos results.length it.index]? = some y := by
        rw [← List.get?_eq_getElem?]
        exact hy
      simp [List.filter_cons, hlt, hy, hy2]
    · rw [if_neg hlt, ih hrest]
      simp [List.filter_cons, hlt]

/-- Helper: any response index below `-len` raises `IndexError` inside the
mapping loop, which aborts it. -/
theorem mapRerankItems_err (results : List Hit) :
    ∀ items : List RerankItem, (∃ it ∈ items, it.index < -(results.length : ℤ)) →
    mapRerankItems results items = .error () := by
  intro items
  induction items with
  | nil =>
    rintro ⟨it, h, _⟩
    cases h
  | cons a rest ih =>
    rintro ⟨it, hmem, hbad⟩
    rw [mapRerankItems]
    rcases List.mem_cons.mp hmem with rfl | hmem'
    · have hlen : (0 : ℤ) ≤ (results.length : ℤ) := Int.ofNat_nonneg _
      have hlt : it.index < (results.length : ℤ) := by omega
      rw [if_pos hlt]
      have hnone : pyGet results it.index = none := by
        unfold pyGet
        split_ifs with h1 h2
        · omega
        · omega
        · rfl
      rw [hnone]
    · by_cases hlt : a.index < (results.length : ℤ)
      · rw [if_pos hlt]
        cases hg : pyGet results a.index
        · rfl
        · rw [ih ⟨it, hmem', hbad⟩]
      · rw [if_neg hlt]
        exact ih ⟨it, hmem', hbad⟩

/-- Counterexample for claim C10: two candidates and a successful response
containing the single pair (index = −1, score = 5).  The claim says any
index outside `[0, len)` — including negative ones — is discarded, which
would leave nothing mapped; the code instead maps the pair onto the *last*
candidate via Python negative indexing and returns it. -/
theorem rerank_negative_index_cx :
    rerank (cfgRetrieval (some "key"))
        [⟨some 1, "a", ""⟩, ⟨some (mkRat 1 2), "b", ""⟩] (.response 200 [⟨-1, 5⟩]) =
      [⟨⟨some (mkRat 1 2), "b", ""⟩, some 5, false⟩] ∧
    rerank (cfgRetrieval (some "key"))
        [⟨some 1, "a", ""⟩, ⟨some (mkRat 1 2), "b", ""⟩] (.response 200 [⟨-1, 5⟩]) ≠ [] := by
  constructor <;> decide

/-- Claim C10 (amended): on a successful response, a pair with index in
`[0, len)` is mapped onto the candidate at that position and a pair with
index ≥ len is discarded; but a pair with a negative index ≥ −len is mapped
onto the candidate at position len+index (Python negative indexing) rather
than discarded, and a pair with index < −len raises `IndexError`, making the
whole rerank fall back to local ranking. -/
theorem rerank_index_mapping (cfg : RetrieverCfg) (results : List Hit)
    (items : List RerankItem) (key : String)
    (hkey : cfg.voyageApiKey = some key) (hkeyNe : key ≠ "")
    (hres : results ≠ []) (hitems : items ≠ []) :
    ((∀ it ∈ items, -(results.length : ℤ) ≤ it.index) →
      rerank cfg results (.response 200 items) =
        (items.filter fun it => decide (it.index < (results.length : ℤ))).map
          (fun it => { hit := (results.get? (pyPos results.length it.index)).getD ⟨none, "", ""⟩
                       rerankScore := some it.score
                       fallbackFlag := false })) ∧
    ((∃ it ∈ items, it.index < -(results.length : ℤ)) →
      rerank cfg results (.response 200 items) = fallbackRank cfg.topKRerank results) := by
  have hkf : ¬(cfg.voyageApiKey = none ∨ cfg.voyageApiKey = some "") := by
    simp [hkey, hkeyNe]
  constructor
  · intro h
    simp [rerank, hres, hkf, hitems, mapRerankItems_ok results items h]
  · intro h
    simp [rerank, hres, hkf, hitems, mapRerankItems_err results items h]

/-- Witness for the amended claim C10: indices 0 (in range), −1 (negative,
in range) and 7 (out of range) against two candidates: 7 is discarded, 0 and
−1 map onto the first and last candidate. -/
theorem rerank_index_mapping_witness :
    rerank (cfgRetrieval (some "key"))
        [⟨some 1, "a", ""⟩, ⟨some (mkRat 1 2), "b", ""⟩]
        (.response 200 [⟨0, 9⟩, ⟨7, 8⟩, ⟨-1, 6⟩]) =
      List.map
        (fun it : RerankItem =>
          { hit := (([⟨some 1, "a", ""⟩, ⟨some (mkRat 1 2), "b", ""⟩] :
                List Hit).get? (pyPos 2 it.index)).getD ⟨none, "", ""⟩
            rerankScore := some it.score
            fallbackFlag := false })
        (List.filter
          (fun it : RerankItem => decide (it.index <
            (([⟨some 1, "a", ""⟩, ⟨some (mkRat 1 2), "b", ""⟩] : List Hit).length : ℤ)))
          [⟨0, 9⟩, ⟨7, 8⟩, ⟨-1, 6⟩]) :=
  (rerank_index_mapping (cfgRetrieval (some "key"))
      [⟨some 1, "a", ""⟩, ⟨some (mkRat 1 2), "b", ""⟩]
      [⟨0, 9⟩, ⟨7, 8⟩, ⟨-1, 6⟩] "key" rfl (by decide) (by decide) (by decide)).1
    (by decide)

/-- The validity predicate of claim C8 for one (fragment, vector) pair:
non-blank text, the configured dimension, and only finite values. -/
def fragmentOK (dims : ℕ) (c : Chunk) (e : List FVal) : Prop :=
  pyStrip c.text.data ≠ [] ∧ e.length = dims ∧ ∀ v ∈ e, v.nonFinite = false

instance (dims : ℕ) (c : Chunk) (e : List FVal) : Decidable (fragmentOK dims c e) :=
  inferInstanceAs (Decidable (_ ∧ _ ∧ _))

/-- Helper: the `upsert` validation loop keeps exactly the pairs satisfying
`fragmentOK` (given a positive configured dimension) and counts the rest. -/
theorem upsertScan_characterization (dims : ℕ) (hd : 0 < dims) :
    ∀ pairs : List (Chunk × List FVal),
      upsertScan dims pairs =
        ((pairs.filter fun p => decide (fragmentOK dims p.1 p.2)).map fun p => mkRecord p.1 p.2,
          pairs.countP fun p => !decide (fragmentOK dims p.1 p.2)) := by
  intro pairs
  induction pairs with
  | nil => rfl
  | cons p rest ih =>
    obtain ⟨c, e⟩ := p
    rw [upsertScan, ih]
    by_cases h1 : c.text = "" ∨ pyStrip c.text.data = []
    · have hnot : ¬ fragmentOK dims c e := by
        rcases h1 with h | h
        · intro hf
          exact hf.1 (by rw [h]; rfl)
        · intro hf
          exact hf.1 h
      simp [h1, List.filter_cons, List.countP_cons, hnot]
    · by_cases h2 : e = [] ∨ e.length ≠ dims
      · have hnot : ¬ fragmentOK dims c e := by
          rcases h2 with h | h
          · intro hf
            have := hf.2.1
            rw [h] at this
            simp at this
            omega
          · intro hf
            exact h hf.2.1
        simp [h1, h2, List.filter_cons, List.countP_cons, hnot]
      · by_cases h3 : e.any FVal.nonFinite = true
        · have hnot : ¬ fragmentOK dims c e := by
            intro hf
            obtain ⟨v, hv, hbad⟩ := List.any_eq_true.mp h3
            rw [hf.2.2 v hv] at hbad
            cases hbad
          simp [h1, h2, h3, List.filter_cons, List.countP_cons, hnot]
        · have hok : fragmentOK dims c e := by
            push_neg at h1 h2
            refine ⟨h1.2, h2.2, fun v hv => ?_⟩
            by_contra hbad
            exact h3 (List.any_eq_true.mpr ⟨v, hv, by simpa using hbad⟩)
          simp [h1, h2, h3, List.filter_cons, List.countP_cons, hok]

/-- Claim C8: in every `upsert` call the fragments paired with their
vectors are validated; a fragment with blank text, a wrong-dimension
vector, or a non-finite vector value is skipped and never inserted, the skip
count is the number of such pairs, and exactly the pairs passing all three
checks are inserted (in order). -/
theorem upsert_validation (dims : ℕ) (chunks : List Chunk) (embeddings : List (List FVal))
    (res : UpsertResult) (hd : 0 < dims) (hres : upsert dims chunks embeddings = some res) :
    res.inserted =
      ((List.zip chunks embeddings).filter fun p => decide (fragmentOK dims p.1 p.2)).map
        (fun p => mkRecord p.1 p.2) ∧
    res.skipped =
      (List.zip chunks embeddings).countP fun p => !decide (fragmentOK dims p.1 p.2) := by
  cases chunks with
  | nil => simp [upsert] at hres
  | cons c0 cs =>
    cases embeddings with
    | nil => simp [upsert] at hres
    | cons e0 es =>
      rw [upsert, upsertScan_characterization dims hd] at hres
      simp only [Option.some.injEq] at hres
      rw [← hres]
      exact ⟨rfl, rfl⟩

/-- Witness for claim C8: four pairs — one valid, one blank text, one
wrong-dimension vector, one NaN — of which exactly the valid one is
inserted and three are counted as skipped. -/
theorem upsert_validation_witness :
    (⟨collectionDocs, [mkRecord ⟨"ok", "pdf", "s", []⟩ [.fin 1, .fin 0]], 3⟩ :
        UpsertResult).inserted =
      ((List.zip
          [(⟨"ok", "pdf", "s", []⟩ : Chunk), ⟨" ", "pdf", "s", []⟩, ⟨"t", "pdf", "s", []⟩,
            ⟨"u", "pdf", "s", []⟩]
          [[FVal.fin 1, FVal.fin 0], [FVal.fin 0, FVal.fin 1], [FVal.fin 1],
            [FVal.nan, FVal.fin 0]]).filter fun p => decide (fragmentOK 2 p.1 p.2)).map
        (fun p => mkRecord p.1 p.2) ∧
    (⟨collectionDocs, [mkRecord ⟨"ok", "pdf", "s", []⟩ [.fin 1, .fin 0]], 3⟩ :
        UpsertResult).skipped =
      (List.zip
          [(⟨"ok", "pdf", "s", []⟩ : Chunk), ⟨" ", "pdf", "s", []⟩, ⟨"t", "pdf", "s", []⟩,
            ⟨"u", "pdf", "s", []⟩]
          [[FVal.fin 1, FVal.fin 0], [FVal.fin 0, FVal.fin 1], [FVal.fin 1],
            [FVal.nan, FVal.fin 0]]).countP fun p => !decide (fragmentOK 2 p.1 p.2) :=
  upsert_validation 2
    [⟨"ok", "pdf", "s", []⟩, ⟨" ", "pdf", "s", []⟩, ⟨"t", "pdf", "s", []⟩, ⟨"u", "pdf", "s", []⟩]
    [[FVal.fin 1, FVal.fin 0], [FVal.fin 0, FVal.fin 1], [FVal.fin 1], [FVal.nan, FVal.fin 0]]
    ⟨collectionDocs, [mkRecord ⟨"ok", "pdf", "s", []⟩ [.fin 1, .fin 0]], 3⟩
    (by decide) (by decide)

/-- Counterexample for claim C9: one `upsert` call mixing a chat fragment
(first) with a pdf fragment.  The pdf fragment's own `source_type` routes to
the documents collection, but the whole call (including the pdf row) is
inserted into the conversations collection chosen from the *first*
fragment. -/
theorem upsert_first_chunk_routing_cx :
    upsert 2 [⟨"hi", "chat", "s", []⟩, ⟨"doc", "pdf", "s", []⟩]
        [[.fin 1, .fin 0], [.fin 0, .fin 1]] =
      some ⟨collectionChats,
        [mkRecord ⟨"hi", "chat", "s", []⟩ [.fin 1, .fin 0],
          mkRecord ⟨"doc", "pdf", "s", []⟩ [.fin 0, .fin 1]], 0⟩ ∧
    getCollection "pdf" = collectionDocs ∧ collectionChats ≠ collectionDocs := by
  refine ⟨by decide, rfl, by decide⟩

/-- Claim C9 (amended): an `upsert` call routes *all* of its fragments to
the single collection determined by the first fragment's `source_type`
('chat' goes to the conversations collection, every other type to the
documents collection); per-fragment routing therefore holds only for calls
whose fragments share one `source_type`. -/
theorem upsert_routing (dims : ℕ) (c0 : Chunk) (cs : List Chunk)
    (embeddings : List (List FVal)) (res : UpsertResult)
    (hres : upsert dims (c0 :: cs) embeddings = some res) :
    res.collection = getCollection c0.source_type ∧
    getCollection "chat" = collectionChats ∧
    ∀ s, s ≠ "chat" → getCollection s = collectionDocs := by
  refine ⟨?_, rfl, fun s hs => by simp [getCollection, hs]⟩
  cases embeddings with
  | nil => simp [upsert] at hres
  | cons e0 es =>
    rw [upsert] at hres
    simp only [Option.some.injEq] at hres
    rw [← hres]

/-- Witness for the amended claim C9 at the mixed call of the
counterexample: the stored collection is the one of the first (chat)
fragment. -/
theorem upsert_routing_witness :
    (⟨collectionChats,
        [mkRecord ⟨"hi", "chat", "s", []⟩ [.fin 1, .fin 0],
          mkRecord ⟨"doc", "pdf", "s", []⟩ [.fin 0, .fin 1]], 0⟩ :
      UpsertResult).collection = getCollection (Chunk.source_type ⟨"hi", "chat", "s", []⟩) ∧
    getCollection "chat" = collectionChats ∧
    ∀ s, s ≠ "chat" → getCollection s = collectionDocs :=
  upsert_routing 2 ⟨"hi", "chat", "s", []⟩ [⟨"doc", "pdf", "s", []⟩]
    [[.fin 1, .fin 0], [.fin 0, .fin 1]]
    ⟨collectionChats,
      [mkRecord ⟨"hi", "chat", "s", []⟩ [.fin 1, .fin 0],
        mkRecord ⟨"doc", "pdf", "s", []⟩ [.fin 0, .fin 1]], 0⟩
    (by decide)

/-- Helper: whenever the daily ceiling would be exceeded,
`AIParser._wait_for_budget` raises, and the state at the moment of the raise
is the input state except for the lazy window rollover (performed before any
ceiling check). -/
theorem waitQuotaAI_helper (cfg : ParserCfg) (st : ParserBudget) (now jitter : ℚ) (est : ℕ)
    (hq : cfg.tpd < st.dailyTokens + est) :
    waitForBudgetAI cfg st now jitter est =
      .quotaError (if 60 ≤ now - st.windowStart then
        { st with windowStart := now, windowRequests := 0, windowTokens := 0 } else st) := by
  rw [waitForBudgetAI]
  by_cases hw : 60 ≤ now - st.windowStart
  · simp only [if_pos hw]
    rw [if_neg (not_not_intro (Or.inr (Or.inr hq))), if_pos hq]
  · simp only [if_neg hw]
    rw [if_neg (not_not_intro (Or.inr (Or.inr hq))), if_pos hq]

/-- Counterexample for claim C3: a state whose 60s window has already
elapsed (`window_start = 0`, `now = 60`) with `window_requests = 5`,
`window_tokens = 100` and the daily ceiling full.  The reservation raises
the daily-quota error as claimed, but the lazy rollover has reset
`window_requests` (and `window_tokens`) to 0 first, so the counters are not
all left unchanged. -/
theorem waitForBudget_quota_mutates_cx :
    waitForBudgetAI cfgAIParser ⟨0, 5, 100, 500000⟩ 60 0 1 =
      .quotaError ⟨60, 0, 0, 500000⟩ ∧
    (⟨60, 0, 0, 500000⟩ : ParserBudget).windowRequests ≠
      (⟨0, 5, 100, 500000⟩ : ParserBudget).windowRequests := by
  constructor
  · have h := waitQuotaAI_helper cfgAIParser ⟨0, 5, 100, 500000⟩ 60 0 1 (by decide)
    rw [h, if_pos (by norm_num)]
  · decide

/-- Claim C3 (amended): when `daily_tokens + cost` exceeds the TPD ceiling,
the reservation raises the daily-quota error; `daily_tokens` is left
unchanged, and the window counters are left unchanged too unless the 60s
window had already elapsed, in which case the lazy rollover (which precedes
the quota check) has reset them to zero and moved `window_start` to `now`. -/
theorem waitForBudget_daily_quota (cfg : ParserCfg) (st : ParserBudget) (now jitter : ℚ)
    (est : ℕ) (hq : cfg.tpd < st.dailyTokens + est) :
    ∃ st1, waitForBudgetAI cfg st now jitter est = .quotaError st1 ∧
      st1.dailyTokens = st.dailyTokens ∧
      (now - st.windowStart < 60 → st1 = st) ∧
      (60 ≤ now - st.windowStart →
        st1 = { st with windowStart := now, windowRequests := 0, windowTokens := 0 }) := by
  refine ⟨_, waitQuotaAI_helper cfg st now jitter est hq, ?_, ?_, ?_⟩
  · by_cases hw : 60 ≤ now - st.windowStart <;> simp [hw]
  · intro hlt
    rw [if_neg (not_le.mpr hlt)]
  · intro hge
    rw [if_pos hge]

/-- Witness for the amended claim C3: a full daily counter inside a live
window (`now = 10`); the reservation raises and every counter is unchanged. -/
theorem waitForBudget_daily_quota_witness :
    ∃ st1, waitForBudgetAI cfgAIParser ⟨0, 5, 100, 500000⟩ 10 0 1 = .quotaError st1 ∧
      st1.dailyTokens = (⟨0, 5, 100, 500000⟩ : ParserBudget).dailyTokens ∧
      ((10 : ℚ) - (⟨0, 5, 100, 500000⟩ : ParserBudget).windowStart < 60 →
        st1 = ⟨0, 5, 100, 500000⟩) ∧
      ((60 : ℚ) ≤ 10 - (⟨0, 5, 100, 500000⟩ : ParserBudget).windowStart →
        st1 = { (⟨0, 5, 100, 500000⟩ : ParserBudget) with
          windowStart := 10, windowRequests := 0, windowTokens := 0 }) :=
  waitForBudget_daily_quota cfgAIParser ⟨0, 5, 100, 500000⟩ 10 0 1 (by decide)

/-- Helper: state of the embedder budget just after one reservation. -/
theorem reserveEmbed_bounds_helper (cfg : EmbedCfg) (st : EmbedBudget) (now jitter : ℚ)
    (est : ℕ) (hrpm : 1 ≤ cfg.rpm) (htpm : (est : ℤ) ≤ (cfg.tpm : ℤ)) :
    (reserveEmbed cfg st now jitter est).1.windowRequests ≤ cfg.rpm ∧
    (reserveEmbed cfg st now jitter est).1.windowTokens ≤ (cfg.tpm : ℤ) := by
  simp only [reserveEmbed, embWait]
  split_ifs with h1 h2 h3 h4 <;> simp_all

/-- Counterexample for claim C4: a single-item batch of 44 characters with
`TPM = 10`: its estimate is 11 > TPM, `embed_documents` cannot shrink a
one-item batch, the reservation waits out the window, resets the counters
and then increments `window_tokens` to 11 — above the TPM limit right after
a successful reservation. -/
theorem embed_tpm_invariant_cx :
    estimateTokens [String.mk (List.replicate 44 'a')] = 11 ∧
    (⟨100, 10, 50⟩ : EmbedCfg).tpm < 11 ∧
    ((embedStep ⟨100, 10, 50⟩ ⟨0, 0, 0⟩ 0 0 [String.mk (List.replicate 44 'a')] 0).2.2.1
        ).windowTokens > ((⟨100, 10, 50⟩ : EmbedCfg).tpm : ℤ) := by
  refine ⟨by decide, by decide, ?_⟩
  have hb : shrinkBatch 10 ((([String.mk (List.replicate 44 'a')] : List String).drop 0).take 50) =
      [String.mk (List.replicate 44 'a')] := by decide
  simp only [embedStep, hb]
  have he : estimateTokens [String.mk (List.replicate 44 'a')] = 11 := by decide
  rw [he]
  simp only [reserveEmbed, embWait]
  norm_num

/-- Claim C4 (amended): just after each reservation by the embedding client,
`window_requests` never exceeds the RPM limit (given RPM ≥ 1), and
`window_tokens` never exceeds the TPM limit *provided the reserved batch's
estimated cost is itself at most TPM*; a single-item batch whose estimate
alone exceeds TPM waits out the window and then leaves `window_tokens` above
the limit (see the counterexample). -/
theorem reserveEmbed_window_bounds (cfg : EmbedCfg) (st : EmbedBudget) (now jitter : ℚ)
    (est : ℕ) (hrpm : 1 ≤ cfg.rpm) (htpm : (est : ℤ) ≤ (cfg.tpm : ℤ)) :
    (reserveEmbed cfg st now jitter est).1.windowRequests ≤ cfg.rpm ∧
    (reserveEmbed cfg st now jitter est).1.windowTokens ≤ (cfg.tpm : ℤ) :=
  reserveEmbed_bounds_helper cfg st now jitter est hrpm htpm

/-- Witness for the amended claim C4 at a concrete input: a 40-token
estimate against the default 100/100000 ceilings, starting from a live
window with 5 requests and 70 tokens. -/
theorem reserveEmbed_window_bounds_witness :
    (reserveEmbed cfgEmbed ⟨0, 5, 70⟩ 30 0 40).1.windowRequests ≤ cfgEmbed.rpm ∧
    (reserveEmbed cfgEmbed ⟨0, 5, 70⟩ 30 0 40).1.windowTokens ≤ (cfgEmbed.tpm : ℤ) :=
  reserveEmbed_window_bounds cfgEmbed ⟨0, 5, 70⟩ 30 0 40 (by decide) (by decide)


/-- Helper: the shrink step always makes strict progress — at least one item
is kept and at least one item is dropped. -/
theorem shrinkBatch_progress_helper (tpm : ℕ) (batch : List String)
    (hover : tpm < estimateTokens batch) (hlen : 1 < batch.length) :
    1 ≤ (shrinkBatch tpm batch).length ∧ (shrinkBatch tpm batch).length < batch.length := by
  have hlen0 : 0 < batch.length := by omega
  have hestpos : 0 < estimateTokens batch := lt_of_lt_of_le one_pos (le_max_left _ _)
  have hr1 : max (mkRat 1 100) (mkRat tpm (estimateTokens batch)) < 1 := by
    apply max_lt
    · rw [Rat.mkRat_eq_div]
      norm_num
    · rw [Rat.mkRat_eq_div]
      rw [div_lt_one (by exact_mod_cast hestpos)]
      exact_mod_cast hover
  have hpos : (0 : ℚ) < (batch.length : ℚ) := by exact_mod_cast hlen0
  have hmul : (batch.length : ℚ) * max (mkRat 1 100) (mkRat tpm (estimateTokens batch)) <
      (batch.length : ℚ) := by
    have h := mul_lt_mul_of_pos_left hr1 hpos
    rwa [mul_one] at h
  have hfl : ⌊(batch.length : ℚ) * max (mkRat 1 100) (mkRat tpm (estimateTokens batch))⌋ <
      (batch.length : ℤ) := Int.floor_lt.mpr (by exact_mod_cast hmul)
  rw [shrinkBatch, if_pos ⟨hover, hlen⟩]
  simp only [List.length_take]
  omega

/-- Helper: when `tpm/estimate` is at least the 0.01 floor, the shrunk size
is exactly `max 1 (len * tpm / estimate)` with natural division (the floor
of the exact proportional value). -/
theorem shrinkBatch_eq_div (tpm : ℕ) (batch : List String)
    (hover : tpm < estimateTokens batch) (hlen : 1 < batch.length)
    (hge : mkRat 1 100 ≤ mkRat tpm (estimateTokens batch)) :
    shrinkBatch tpm batch =
      batch.take (max 1 (batch.length * tpm / estimateTokens batch)) := by
  rw [shrinkBatch, if_pos ⟨hover, hlen⟩]
  have hmax : max (mkRat 1 100) (mkRat tpm (estimateTokens batch)) =
      mkRat tpm (estimateTokens batch) := max_eq_right hge
  rw [hmax, Rat.mkRat_eq_div]
  have h1 : (batch.length : ℚ) * (((tpm : ℤ) : ℚ) / ((estimateTokens batch : ℕ) : ℚ)) =
      (((batch.length * tpm : ℕ) : ℤ) : ℚ) / ((estimateTokens batch : ℕ) : ℚ) := by
    push_cast
    ring
  simp only [h1, Rat.floor_intCast_div_natCast, ← Int.natCast_div, Int.toNat_natCast]

set_option maxRecDepth 8000 in
/-- Counterexample for claim C6: `TPM = 100` and a three-item batch of
500, 1 and 1 characters (estimate `502 // 4 = 125 > 100`).  The proportional
shrink keeps `max(1, int(3 * 100/125)) = 2` items, but the surviving two
items still estimate to `501 // 4 = 125 > TPM` while `new_size = 2 ≠ 1`:
one shrink step does not establish the claimed disjunction. -/
theorem shrinkBatch_not_converged_cx :
    (shrinkBatch 100 [String.mk (List.replicate 500 'a'), "b", "c"]).length = 2 ∧
    100 < estimateTokens (shrinkBatch 100 [String.mk (List.replicate 500 'a'), "b", "c"]) ∧
    100 < estimateTokens [String.mk (List.replicate 500 'a'), "b", "c"] ∧
    1 < ([String.mk (List.replicate 500 'a'), "b", "c"] : List String).length := by
  have hb : shrinkBatch 100 [String.mk (List.replicate 500 'a'), "b", "c"] =
      [String.mk (List.replicate 500 'a'), "b"] := by
    rw [shrinkBatch_eq_div 100 [String.mk (List.replicate 500 'a'), "b", "c"]
      (by decide) (by decide) (by decide)]
    decide
  rw [hb]
  refine ⟨rfl, by decide, by decide, by decide⟩

/-- Claim C6 (amended): for a batch whose estimated cost exceeds TPM and
which has more than one item, the shrink step always yields `1 ≤ new_size`
and makes strict progress (`new_size < old_size`); but the re-estimated cost
of the shrunk batch can still exceed TPM even when `new_size > 1`, because
the shrink is a single proportional step on the item count and item sizes
can be non-uniform (see the counterexample). -/
theorem shrinkBatch_progress (tpm : ℕ) (batch : List String)
    (hover : tpm < estimateTokens batch) (hlen : 1 < batch.length) :
    1 ≤ (shrinkBatch tpm batch).length ∧ (shrinkBatch tpm batch).length < batch.length :=
  shrinkBatch_progress_helper tpm batch hover hlen

set_option maxRecDepth 8000 in
/-- Witness for the amended claim C6 at the counterexample batch: the
shrunk batch keeps at least one and strictly fewer than three items. -/
theorem shrinkBatch_progress_witness :
    1 ≤ (shrinkBatch 100 [String.mk (List.replicate 500 'a'), "b", "c"]).length ∧
    (shrinkBatch 100 [String.mk (List.replicate 500 'a'), "b", "c"]).length <
      ([String.mk (List.replicate 500 'a'), "b", "c"] : List String).length :=
  shrinkBatch_progress 100 [String.mk (List.replicate 500 'a'), "b", "c"]
    (by decide) (by decide)

/-- Helper: when the estimated cost of the (possibly truncated) content
pushes `daily_tokens` over the TPD ceiling, `parse_content` catches the
quota error and returns `None` without consuming any remote attempt; the
state is the input state up to the lazy window rollover. -/
theorem parseContent_quota_helper (cfg : ParserCfg) (oracle : ℕ → AttemptOutcome)
    (jitter : ℚ) (raw : List Char) (st : ParserBudget) (now : ℚ) (k : ℕ)
    (hne : ¬(raw = [] ∨ pyStrip raw = []))
    (hq : cfg.tpd < st.dailyTokens +
      (max 1 ((if 6000 < raw.length then raw.take 6000 ++ truncMark else raw).length / 4) +
        cfg.maxTokens)) :
    parseContent cfg oracle jitter raw st now k =
      ⟨none,
        (if 60 ≤ now - st.windowStart then
          { st with windowStart := now, windowRequests := 0, windowTokens := 0 } else st),
        now, k⟩ := by
  rw [parseContent, if_neg hne]
  have hw := waitQuotaAI_helper cfg st now jitter
    (max 1 ((if 6000 < raw.length then raw.take 6000 ++ truncMark else raw).length / 4) +
      cfg.maxTokens) hq
  simp only [hw]

/-- Counterexample for claim C7: content `"hello"` against an exhausted
daily counter.  The claim says the daily-quota error must surface to the
caller; instead `parse_content` returns exactly `None` — the same silent
no-result value an ordinary parse failure produces — leaving the counters
untouched and making no remote attempt (the oracle index stays 0). -/
theorem parseContent_quota_silent_cx :
    parseContent cfgAIParser (fun _ => .apiError) 0 "hello".data ⟨0, 0, 0, 500000⟩ 0 0 =
      ⟨none, ⟨0, 0, 0, 500000⟩, 0, 0⟩ := by
  rw [parseContent_quota_helper cfgAIParser (fun _ => .apiError) 0 "hello".data
    ⟨0, 0, 0, 500000⟩ 0 0 (by decide) (by decide)]
  rw [if_neg (by norm_num)]

/-- Claim C7 (amended): when the daily token quota is exhausted, the current
`parse_content` call is fatal — it makes no remote attempt and is not
retried — but the error does *not* surface to the caller: the
`RuntimeError` is caught inside `parse_content` and converted into the
silent no-result return `None`, with `daily_tokens` unchanged. -/
theorem parseContent_quota_fatal (cfg : ParserCfg) (oracle : ℕ → AttemptOutcome)
    (jitter : ℚ) (raw : List Char) (st : ParserBudget) (now : ℚ) (k : ℕ)
    (hne : ¬(raw = [] ∨ pyStrip raw = []))
    (hq : cfg.tpd < st.dailyTokens +
      (max 1 ((if 6000 < raw.length then raw.take 6000 ++ truncMark else raw).length / 4) +
        cfg.maxTokens)) :
    (parseContent cfg oracle jitter raw st now k).output = none ∧
    (parseContent cfg oracle jitter raw st now k).k = k ∧
    (parseContent cfg oracle jitter raw st now k).st.dailyTokens = st.dailyTokens := by
  rw [parseContent_quota_helper cfg oracle jitter raw st now k hne hq]
  refine ⟨rfl, rfl, ?_⟩
  by_cases hw : 60 ≤ now - st.windowStart <;> simp [hw]

/-- Witness for the amended claim C7 at a concrete input: content `"hi"`,
oracle index 3, daily counter full. -/
theorem parseContent_quota_fatal_witness :
    (parseContent cfgAIParser (fun _ => .apiError) 0 "hi".data ⟨0, 1, 2, 500000⟩ 5 3).output =
      none ∧
    (parseContent cfgAIParser (fun _ => .apiError) 0 "hi".data ⟨0, 1, 2, 500000⟩ 5 3).k = 3 ∧
    (parseContent cfgAIParser (fun _ => .apiError) 0 "hi".data
        ⟨0, 1, 2, 500000⟩ 5 3).st.dailyTokens =
      (⟨0, 1, 2, 500000⟩ : ParserBudget).dailyTokens :=
  parseContent_quota_fatal cfgAIParser (fun _ => .apiError) 0 "hi".data ⟨0, 1, 2, 500000⟩ 5 3
    (by decide) (by decide)
